import Mathlib

/-!
Verification of the prompt helpers in
`archinstall/lib/user_interaction/general_conf.py`.

The module is interactive glue code: each function shows a menu or text
widget, receives a tagged result (Selection / Esc / Ctrl_c), and maps it to
a return value, occasionally touching a process-wide storage dict or a
configuration file.  The embedding below makes every external event
explicit: the widget outcome, the text typed by the user, the package
validation oracle, the mirror directory, the profile catalog and the
storage dict become parameters, and each Python function is translated as
a pure function of those parameters.  Python's implicit `return None`
(when a `match` has no case for the result) becomes `none`.
-/

namespace GeneralConf

/-- The tagged result a menu/text widget returns (`MenuSelectionType` in
`menu/menu.py`): a selection carrying a value, an Escape, or a Ctrl-c
interrupt.  The value's shape depends on the prompt. -/
inductive MenuResult (α : Type) where
  | Selection : α → MenuResult α
  | Esc : MenuResult α
  | Ctrl_c : MenuResult α
deriving DecidableEq

/-! ### Python string primitives

`str.strip()` and `str.split()` (no argument) used by `read_packages`,
and the substring test `"ParallelDownloads" in line` used by
`add_number_of_parrallel_downloads`. -/

/-- Python's notion of (ASCII) whitespace used by `str.strip()` /
`str.split()`: space, tab, newline, carriage return, vertical tab,
form feed. -/
def pyIsSpace (c : Char) : Bool :=
  c == ' ' || c == '\t' || c == '\n' || c == '\r' || c == '\x0b' || c == '\x0c'

/-- Python `str.strip()` with no arguments: remove leading and trailing
whitespace. -/
def pyStrip (s : String) : String :=
  String.mk (((s.toList.dropWhile pyIsSpace).reverse.dropWhile pyIsSpace).reverse)

/-- Worker for `pySplit`: walk the characters, accumulating the current
word (reversed) in `acc`; whitespace closes the current word, runs of
whitespace produce nothing. -/
def pySplitAux : List Char → List Char → List (List Char)
  | [], acc => if acc.isEmpty then [] else [acc.reverse]
  | c :: cs, acc =>
    if pyIsSpace c then
      if acc.isEmpty then pySplitAux cs [] else acc.reverse :: pySplitAux cs []
    else
      pySplitAux cs (c :: acc)

/-- Python `str.split()` with no arguments: split on runs of whitespace,
discarding empty fields. -/
def pySplit (s : String) : List String :=
  (pySplitAux s.toList []).map String.mk

/-- Test `startsWithChars hay needle`: `needle` is a prefix of `hay`. -/
def startsWithChars : List Char → List Char → Bool
  | _, [] => true
  | [], _ :: _ => false
  | h :: hs, n :: ns => (h == n) && startsWithChars hs ns

/-- Test `containsChars hay needle`: Python's substring test
`needle in hay`, on character lists. -/
def containsChars : List Char → List Char → Bool
  | [], needle => needle.isEmpty
  | h :: hs, needle => startsWithChars (h :: hs) needle || containsChars hs needle

/-! ### `ask_for_a_timezone` / `ask_for_audio_selection`

Both functions run a menu and then `match choice.type_` with only the
`Esc` and `Selection` cases; any other result falls through the `match`
and the Python function implicitly returns `None`. -/

/-- Model of `ask_for_a_timezone(preset)` (general_conf.py lines 42-55), as a
function of the widget result.  `Esc` returns the preset, `Selection`
returns the chosen value, anything else falls through to `None`. -/
def ask_for_a_timezone (preset : Option String) (choice : MenuResult String) :
    Option String :=
  match choice with
  | .Esc => preset
  | .Selection v => some v
  | .Ctrl_c => none

/-- Model of `ask_for_audio_selection(desktop, preset)` (lines 58-67).  The
`desktop` flag only changes the offered choices and the default; the
result mapping is the same two-case `match` as for the timezone. -/
def ask_for_audio_selection (desktop : Bool) (preset : Option String)
    (choice : MenuResult String) : Option String :=
  match choice with
  | .Esc => preset
  | .Selection v => some v
  | .Ctrl_c => none

/-- The audio choices offered (line 60): `pipewire`/`pulseaudio`, plus
`No audio server` when not a desktop install. -/
def ask_for_audio_selection_choices (desktop : Bool) (no_audio : String) :
    List String :=
  if desktop then ["pipewire", "pulseaudio"] else ["pipewire", "pulseaudio", no_audio]

/-! ### `select_language` (keyboard layout) -/

/-- Python's stable `sorted` with a boolean comparator, realised as an
insertion sort (any stable sort computes the same list): insert `a`
before the first element it compares `le` to. -/
def insertLe (le : String → String → Bool) (a : String) : List String → List String
  | [] => [a]
  | b :: bs => if le a b then a :: b :: bs else b :: insertLe le a bs

/-- Stable sort by `le` (model of Python's `sorted`). -/
def pySorted (le : String → String → Bool) : List String → List String
  | [] => []
  | a :: as => insertLe le a (pySorted le as)

/-- Lexicographic comparison of character lists by code point:
`leChars x y` is Python's `x <= y` on the underlying strings. -/
def leChars : List Char → List Char → Bool
  | [], _ => true
  | _ :: _, [] => false
  | a :: as, b :: bs =>
    if a.toNat < b.toNat then true
    else if b.toNat < a.toNat then false
    else leChars as bs

/-- Default Python string comparison (lexicographic on code points),
used by the inner `sorted(...)`. -/
def strLe (a b : String) : Bool := leChars a.toList b.toList

/-- Comparison by `key=len`, used by the outer `sorted(..., key=len)`. -/
def lenLe (a b : String) : Bool := decide (a.length ≤ b.length)

/-- The option list built at line 80:
`sorted(sorted(list(kb_lang)), key=len)` — alphabetical sort, then a
stable sort by length.  The menu is created with `sort=False`, so this
is exactly the order offered to the user. -/
def select_language_options (kb_lang : List String) : List String :=
  pySorted lenLe (pySorted strLe kb_lang)

/-- The ordering `sorted(sorted(xs), key=len)` produces: primarily by
increasing length, and alphabetically (by code point) among strings of
equal length. -/
def ordLenAlpha (a b : String) : Prop :=
  a.length < b.length ∨ (a.length = b.length ∧ strLe a b = true)

/-- Model of `select_language(preset_value)` (lines 70-92): if the widget's value
is `None` (escape / nothing chosen) return the preset, else the value. -/
def select_language (preset_value : Option String)
    (selected_value : Option String) : Option String :=
  match selected_value with
  | none => preset_value
  | some v => some v

/-! ### `select_mirror_regions`

The mirror directory (`list_mirrors()`) is external data; it is modelled
as the key list offered to the menu plus a total info map (the dict
comprehension at line 119 only looks up keys the menu produced, so the
lookup never fails). -/

/-- Model of `select_mirror_regions(preset_values)` (lines 95-119) as a function
of the widget result.  `Ctrl_c` returns the empty dict, `Esc` returns
`preset_values` (which may be `None`), and any selection builds the
sub-dict of the chosen regions. -/
def select_mirror_regions {α : Type} (mirrorKeys : List String)
    (mirrorInfo : String → α) (preset_values : Option (List (String × α)))
    (result : MenuResult (List String)) : Option (List (String × α)) :=
  match result with
  | .Ctrl_c => some []
  | .Esc => preset_values
  | .Selection sel => some (sel.map fun k => (k, mirrorInfo k))

/-! ### `select_archinstall_language` -/

/-- A UI language record (`translationhandler.Language`): the
specification's `{key, display_name}` pair. -/
structure Language where
  abbr : String
  display_name : String
deriving DecidableEq

/-- Model of `select_archinstall_language(languages, preset_value)` (lines
122-137).  The options dict maps display names to records; with
duplicate display names a Python dict keeps the last binding, hence the
`getLast?`.  A failed dict lookup (impossible for menu-produced keys) is
modelled as `none`, as is the implicit fall-through for `Ctrl_c`. -/
def select_archinstall_language (languages : List Language)
    (preset_value : Language) (choice : MenuResult String) : Option Language :=
  match choice with
  | .Esc => some preset_value
  | .Selection v => (languages.filter fun l => l.display_name == v).getLast?
  | .Ctrl_c => none

/-! ### `select_profile` and the shared configuration store -/

/-- A profile object, `Profile(None, name)` as constructed at line 151:
the path argument (always `None` here) and the profile name. -/
structure Profile where
  path : Option String
  profile : String
deriving DecidableEq

/-- The slice of the process-wide `storage` dict this module touches.
The keys rewritten by `select_profile` on interrupt get their own
fields; `args_desktop_environment` and `args_gfx_driver_packages` stand
for `storage['arguments']['desktop-environment']` and
`storage['arguments']['gfx_driver_packages']`.  `others` and
`args_others` keep every remaining key of `storage` and of
`storage['arguments']`, so preservation of untouched keys is statable. -/
structure StorageState where
  profile_minimal : Bool
  selected_servers : List String
  desktop_profile : Option String
  args_desktop_environment : Option String
  args_gfx_driver_packages : Option String
  others : List (String × String)
  args_others : List (String × String)
deriving DecidableEq

/-- The options dict built at lines 147-155: profile names sorted
alphabetically, each rendered as `name: description` and mapped to the
`Profile` object.  `descr` models `get_profile_description()`. -/
def select_profile_options (profilesList : List String)
    (descr : String → String) : List (String × Profile) :=
  (pySorted strLe profilesList).map fun p => (p ++ ": " ++ descr p, Profile.mk none p)

/-- Model of `select_profile(preset)` (lines 140-178) as a function of the widget
result, returning the chosen profile (if any) and the updated storage.
The `preset` parameter is unused by the Python body.  `Selection` looks
the rendered option up in the dict (dict semantics: last binding wins; a
failed lookup, impossible for menu-produced keys, is modelled as
`none`); a selection whose value is `None` returns `None`.  `Ctrl_c`
resets the four profile-related storage keys and returns `None`; `Esc`
returns `None` leaving storage untouched. -/
def select_profile (profilesList : List String) (descr : String → String)
    (preset : Option Profile) (st : StorageState)
    (selection : MenuResult (Option String)) : Option Profile × StorageState :=
  match selection with
  | .Selection val =>
    (match val with
     | some v =>
        (((select_profile_options profilesList descr).filter
            fun o => o.1 == v).getLast?.map Prod.snd, st)
     | none => (none, st))
  | .Ctrl_c =>
    (none,
      { st with
        profile_minimal := false
        selected_servers := []
        desktop_profile := none
        args_desktop_environment := none
        args_gfx_driver_packages := none })
  | .Esc => (none, st)

/-! ### `ask_additional_packages_to_install`

The text widget and the remote package check are external: the text the
user finally submits at each prompt becomes an input string, and
`validate_package_list` becomes an oracle `isValid`.

Modelled from the spec: `validate_package_list` (in
`packages/packages.py`, not part of this file) — per §6, "given a list
of package names, returns (valid, invalid) subsets"; it is embedded as
the pair of filters by the oracle. -/

/-- The inner `read_packages(already_defined)` (lines 186-189), as a
function of the text the user finally submits.  The `already_defined`
argument only pre-fills the widget's display and does not constrain the
submitted text, so it does not appear here.  Strip the input; empty
input yields `[]`, otherwise split on whitespace. -/
def read_packages (rawInput : String) : List String :=
  let input_packages := pyStrip rawInput
  if input_packages = "" then [] else pySplit input_packages

/-- What one run of `ask_additional_packages_to_install` did:
the returned package list (`none` when the modelled user inputs ran out
while the loop still wanted another answer), the re-prompts issued
(as pairs: the package list that failed validation, and the valid
subset used to seed the re-prompt), and how many times
`validate_package_list` was called. -/
structure LoopResult where
  result : Option (List String)
  reprompts : List (List String × List String)
  validationCalls : Nat
deriving DecidableEq

/-- The `while True` validation loop (lines 195-205).  At each
iteration: an empty package list breaks out; otherwise
`validate_package_list` splits the list by the oracle, and if every
entry is valid the loop breaks, else the user is re-prompted seeded
with the valid subset and the next submitted text is read. -/
def askLoop (isValid : String → Bool) (inputs : List String)
    (packages : List String) : LoopResult :=
  if packages.isEmpty then ⟨some packages, [], 0⟩
  else if (packages.filter fun p => !isValid p).isEmpty then ⟨some packages, [], 1⟩
  else
    match inputs with
    | [] => ⟨none, [(packages, packages.filter fun p => isValid p)], 1⟩
    | i :: rest =>
      let r := askLoop isValid rest (read_packages i)
      ⟨r.result, (packages, packages.filter fun p => isValid p) :: r.reprompts,
        r.validationCalls + 1⟩

/-- Model of `ask_additional_packages_to_install(pre_set_packages)` (lines
181-207).  `offline` and `no_pkg_lookups` are the two storage argument
flags read at line 194; `firstInput` is the text submitted at the first
prompt (whose display is seeded with `pre_set_packages`), `laterInputs`
the texts submitted at subsequent re-prompts.  When either flag is set
the validation loop is skipped entirely. -/
def ask_additional_packages_to_install (offline no_pkg_lookups : Bool)
    (isValid : String → Bool) (pre_set_packages : List String)
    (firstInput : String) (laterInputs : List String) : LoopResult :=
  let packages := read_packages firstInput
  if !offline && !no_pkg_lookups then askLoop isValid laterInputs packages
  else ⟨some packages, [], 0⟩

/-! ### `add_number_of_parrallel_downloads`

The integer-prompt loop (lines 212-217) only produces `input_number`;
the claims concern the file rewrite (lines 219-228).  The file content
is read and split on `"\n"`; the rewrite walks the resulting lines and
writes each back followed by `"\n"`, replacing every line containing
the substring `ParallelDownloads`.  The embedding works on that line
list. -/

/-- Python's `"ParallelDownloads" in line` (line 225). -/
def containsPD (line : String) : Bool :=
  containsChars line.toList ("ParallelDownloads".toList)

/-- The replacement line `f"ParallelDownloads = {input_number}"`
(line 226, without the trailing newline each written line gets). -/
def parallelLine (input_number : Int) : String :=
  "ParallelDownloads = " ++ toString input_number

/-- The rewrite loop of `add_number_of_parrallel_downloads` (lines
223-228) on the line list of `/etc/pacman.conf`: every line containing
the substring `ParallelDownloads` is replaced by
`ParallelDownloads = <input_number>`, every other line is written back
unchanged. -/
def add_number_of_parrallel_downloads (input_number : Int)
    (pacman_conf : List String) : List String :=
  pacman_conf.map fun line =>
    if containsPD line then parallelLine input_number else line

/-! ### `select_additional_repositories` -/

/-- The repository choices offered (line 241). -/
def select_additional_repositories_options : List String := ["multilib", "testing"]

/-- Model of `select_additional_repositories(preset)` (lines 233-255):
`Esc` returns the preset, `Ctrl_c` the empty list, a selection its
value.  All three result kinds are matched, so there is no implicit
`None` here. -/
def select_additional_repositories (preset : List String)
    (choice : MenuResult (List String)) : List String :=
  match choice with
  | .Esc => preset
  | .Ctrl_c => []
  | .Selection v => v

/-! ## Theorems -/

/-- C1: the spec claims that every prompt taking a preset returns that
preset unchanged on an `Esc` result, "including … select_profile".
This is false for `select_profile`: its Escape case (line 178) returns
`None` regardless of the preset.  Concretely, with preset
`Profile(None, "awesome")` an Escape yields `None`, not the preset. -/
theorem C1_escape_counterexample :
    (select_profile ["awesome"] (fun _ => "A window manager")
        (some (Profile.mk none ("awesome")))
        (StorageState.mk true ["srv"] (some ("gnome")) (some ("gnome"))
          (some ("nvidia")) [] [])
        MenuResult.Esc).1 = none ∧
    some (Profile.mk none ("awesome")) ≠ (none : Option Profile) := by
  decide

/-- C1 (amended): on an `Esc` widget result, `ask_for_a_timezone`,
`ask_for_audio_selection`, `select_mirror_regions`,
`select_archinstall_language` and `select_additional_repositories`
all return their preset argument unchanged; `select_profile` is the
exception — it returns nothing (`None`) on Escape, whatever the
preset. -/
theorem C1_escape_amended :
    ∀ (pt : Option String) (desktop : Bool) (pa : Option String)
      (α : Type) (keys : List String) (info : String → α)
      (pm : Option (List (String × α)))
      (langs : List Language) (pl : Language)
      (pr : List String)
      (profiles : List String) (descr : String → String)
      (pp : Option Profile) (st : StorageState),
      ask_for_a_timezone pt MenuResult.Esc = pt ∧
      ask_for_audio_selection desktop pa MenuResult.Esc = pa ∧
      select_mirror_regions keys info pm MenuResult.Esc = pm ∧
      select_archinstall_language langs pl MenuResult.Esc = some pl ∧
      select_additional_repositories pr MenuResult.Esc = pr ∧
      (select_profile profiles descr pp st MenuResult.Esc).1 = none := by
  intro pt desktop pa α keys info pm langs pl pr profiles descr pp st
  exact ⟨rfl, rfl, rfl, rfl, rfl, rfl⟩

/-- A map that fixes every element of a list leaves the list unchanged. -/
theorem map_self_of (f : String → String) (l : List String)
    (h : ∀ x ∈ l, f x = x) : l.map f = l := by
  induction l with
  | nil => rfl
  | cons a as ih =>
    simp only [List.map_cons]
    rw [h a (by simp), ih (fun x hx => h x (by simp [hx]))]

/-- C2: the claim quantifies over files that contain exactly one line
`ParallelDownloads = 5` "among any other lines" and asserts every other
line survives unchanged.  The rewrite loop (line 225) replaces every
line merely *containing* the substring `ParallelDownloads`, so another
line such as a comment mentioning the directive is rewritten too: with
lines `["ParallelDownloads = 5", "# ParallelDownloads notes"]` and
input 8, the comment line is replaced and is absent from the result. -/
theorem C2_rewrite_counterexample :
    add_number_of_parrallel_downloads 8
        ["ParallelDownloads = 5", "# ParallelDownloads notes"] =
      ["ParallelDownloads = 8", "ParallelDownloads = 8"] ∧
    "# ParallelDownloads notes" ∉
      add_number_of_parrallel_downloads 8
        ["ParallelDownloads = 5", "# ParallelDownloads notes"] := by
  decide

/-- C2 (amended): if the file contains exactly one line
`ParallelDownloads = 5` and no *other* line contains the substring
`ParallelDownloads`, then rewriting with accepted input 8 replaces that
line by `ParallelDownloads = 8` and leaves every other line unchanged,
in its original order. -/
theorem C2_rewrite_amended (before after : List String)
    (h : ∀ l ∈ before ++ after, containsPD l = false) :
    add_number_of_parrallel_downloads 8
        (before ++ ["ParallelDownloads = 5"] ++ after) =
      before ++ ["ParallelDownloads = 8"] ++ after := by
  have hb : ∀ l ∈ before, containsPD l = false :=
    fun l hl => h l (List.mem_append_left _ hl)
  have ha : ∀ l ∈ after, containsPD l = false :=
    fun l hl => h l (List.mem_append_right _ hl)
  unfold add_number_of_parrallel_downloads
  rw [List.map_append, List.map_append]
  rw [map_self_of _ before (fun x hx => by simp [hb x hx]),
    map_self_of _ after (fun x hx => by simp [ha x hx])]
  have hmid :
      (["ParallelDownloads = 5"].map fun line =>
        if containsPD line then parallelLine 8 else line) =
      ["ParallelDownloads = 8"] := by decide
  rw [hmid]

/-- Witness for C2 (amended) on a three-line file. -/
theorem C2_rewrite_amended_witness :
    add_number_of_parrallel_downloads 8
        (["# begin"] ++ ["ParallelDownloads = 5"] ++ ["# end"]) =
      ["# begin"] ++ ["ParallelDownloads = 8"] ++ ["# end"] :=
  C2_rewrite_amended ["# begin"] ["# end"] (by decide)

/-- C3: if no line of the file contains the substring
`ParallelDownloads`, the rewrite leaves the file unchanged — in
particular it never inserts the directive when it is absent. -/
theorem C3_no_insertion (input_number : Int) (pacman_conf : List String)
    (h : ∀ l ∈ pacman_conf, containsPD l = false) :
    add_number_of_parrallel_downloads input_number pacman_conf = pacman_conf ∧
    ∀ l ∈ add_number_of_parrallel_downloads input_number pacman_conf,
      containsPD l = false := by
  have heq : add_number_of_parrallel_downloads input_number pacman_conf =
      pacman_conf :=
    map_self_of _ _ (fun x hx => by simp [h x hx])
  exact ⟨heq, by rw [heq]; exact h⟩

/-- Witness for C3 on a small directive-free file. -/
theorem C3_no_insertion_witness :
    add_number_of_parrallel_downloads 7 ["[options]", "Color"] =
      ["[options]", "Color"] :=
  (C3_no_insertion 7 ["[options]", "Color"] (by decide)).1

/-- C4: on a `Ctrl_c` (interrupt) result, `select_profile` returns
nothing and resets exactly the designated profile-related entries of
the shared storage: `profile_minimal` to `False`, `_selected_servers`
to the empty list, `_desktop_profile` and the two related
`arguments` entries (`desktop-environment`, `gfx_driver_packages`) to
`None`; every other storage key is untouched (the record update keeps
all remaining fields, in particular `others` and `args_others`). -/
theorem C4_profile_interrupt_reset (profilesList : List String)
    (descr : String → String) (preset : Option Profile) (st : StorageState) :
    (select_profile profilesList descr preset st MenuResult.Ctrl_c).1 = none ∧
    (select_profile profilesList descr preset st MenuResult.Ctrl_c).2 =
      { st with
        profile_minimal := false
        selected_servers := []
        desktop_profile := none
        args_desktop_environment := none
        args_gfx_driver_packages := none } := by
  exact ⟨rfl, rfl⟩

/-- C7: `select_mirror_regions` maps a `Ctrl_c` (interrupt) result to
the empty mapping, whatever the preset mapping (and whatever the mirror
directory contents). -/
theorem C7_mirror_interrupt_empty (α : Type) (mirrorKeys : List String)
    (mirrorInfo : String → α) (preset_values : Option (List (String × α))) :
    select_mirror_regions mirrorKeys mirrorInfo preset_values
      MenuResult.Ctrl_c = some [] := by
  exact rfl

/-- The code-point comparison is total. -/
theorem leChars_total : ∀ x y : List Char, leChars x y = true ∨ leChars y x = true := by
  intro x
  induction x with
  | nil => intro y; exact Or.inl rfl
  | cons a as ih =>
    intro y
    cases y with
    | nil => exact Or.inr rfl
    | cons b bs =>
      simp only [leChars]
      by_cases hab : a.toNat < b.toNat
      · exact Or.inl (by rw [if_pos hab])
      · by_cases hba : b.toNat < a.toNat
        · exact Or.inr (by rw [if_pos hba])
        · cases ih bs with
          | inl h => exact Or.inl (by rw [if_neg hab, if_neg hba]; exact h)
          | inr h => exact Or.inr (by rw [if_neg hba, if_neg hab]; exact h)

/-- The code-point comparison is transitive. -/
theorem leChars_trans : ∀ x y z : List Char,
    leChars x y = true → leChars y z = true → leChars x z = true := by
  intro x
  induction x with
  | nil => intro y z _ _; rfl
  | cons a as ih =>
    intro y z hxy hyz
    cases y with
    | nil => exact absurd hxy (by simp [leChars])
    | cons b bs =>
      cases z with
      | nil => exact absurd hyz (by simp [leChars])
      | cons c cs =>
        simp only [leChars] at hxy hyz ⊢
        by_cases hab : a.toNat < b.toNat
        · by_cases hbc : b.toNat < c.toNat
          · rw [if_pos (show a.toNat < c.toNat by omega)]
          · by_cases hcb : c.toNat < b.toNat
            · rw [if_neg hbc, if_pos hcb] at hyz
              exact absurd hyz (by simp)
            · rw [if_pos (show a.toNat < c.toNat by omega)]
        · by_cases hba : b.toNat < a.toNat
          · rw [if_neg hab, if_pos hba] at hxy
            exact absurd hxy (by simp)
          · rw [if_neg hab, if_neg hba] at hxy
            by_cases hbc : b.toNat < c.toNat
            · rw [if_pos (show a.toNat < c.toNat by omega)]
            · by_cases hcb : c.toNat < b.toNat
              · rw [if_neg hbc, if_pos hcb] at hyz
                exact absurd hyz (by simp)
              · rw [if_neg hbc, if_neg hcb] at hyz
                rw [if_neg (show ¬a.toNat < c.toNat by omega),
                  if_neg (show ¬c.toNat < a.toNat by omega)]
                exact ih bs cs hxy hyz

/-- Totality of the Python string comparison. -/
theorem strLe_total (x y : String) : strLe x y = true ∨ strLe y x = true :=
  leChars_total x.toList y.toList

/-- Transitivity of the Python string comparison. -/
theorem strLe_trans {x y z : String} (h1 : strLe x y = true)
    (h2 : strLe y z = true) : strLe x z = true :=
  leChars_trans x.toList y.toList z.toList h1 h2

/-- Inserting into a list produces a permutation of consing. -/
theorem insertLe_perm (le : String → String → Bool) (a : String) :
    ∀ l, (insertLe le a l).Perm (a :: l) := by
  intro l
  induction l with
  | nil => exact List.Perm.refl _
  | cons b bs ih =>
    unfold insertLe
    by_cases h : le a b = true
    · rw [if_pos h]
    · rw [if_neg h]
      exact (ih.cons b).trans (List.Perm.swap a b bs)

/-- The modelled `sorted` returns a permutation of its input. -/
theorem pySorted_perm (le : String → String → Bool) :
    ∀ l, (pySorted le l).Perm l := by
  intro l
  induction l with
  | nil => exact List.Perm.refl _
  | cons a as ih =>
    unfold pySorted
    exact (insertLe_perm le a (pySorted le as)).trans (ih.cons a)

/-- Inserting with the string comparator preserves alphabetical
sortedness. -/
theorem insertLe_sorted_str (a : String) :
    ∀ l, l.Pairwise (fun x y => strLe x y = true) →
      (insertLe strLe a l).Pairwise (fun x y => strLe x y = true) := by
  intro l
  induction l with
  | nil => intro _; simp [insertLe]
  | cons b bs ih =>
    intro h
    rw [List.pairwise_cons] at h
    obtain ⟨hb, hbs⟩ := h
    unfold insertLe
    by_cases hab : strLe a b = true
    · rw [if_pos hab, List.pairwise_cons]
      refine ⟨?_, List.pairwise_cons.mpr ⟨hb, hbs⟩⟩
      intro x hx
      cases List.mem_cons.mp hx with
      | inl hxb => rw [hxb]; exact hab
      | inr hxs => exact strLe_trans hab (hb x hxs)
    · rw [if_neg hab, List.pairwise_cons]
      refine ⟨?_, ih hbs⟩
      intro x hx
      have hx' := (insertLe_perm strLe a bs).mem_iff.mp hx
      cases List.mem_cons.mp hx' with
      | inl hxa =>
        rw [hxa]
        cases strLe_total a b with
        | inl h => exact absurd h hab
        | inr h => exact h
      | inr hxs => exact hb x hxs

/-- The inner `sorted(...)` yields an alphabetically sorted list. -/
theorem pySorted_sorted_str :
    ∀ l, (pySorted strLe l).Pairwise (fun x y => strLe x y = true) := by
  intro l
  induction l with
  | nil => simp [pySorted]
  | cons a as ih =>
    unfold pySorted
    exact insertLe_sorted_str a (pySorted strLe as) ih

/-- Inserting with the length comparator into a length-then-alphabet
sorted list whose elements all dominate `a` alphabetically keeps the
length-then-alphabet order (this is where the stability of the
insertion sort is used). -/
theorem insertLe_len_combined (a : String) :
    ∀ l, l.Pairwise ordLenAlpha → (∀ b ∈ l, strLe a b = true) →
      (insertLe lenLe a l).Pairwise ordLenAlpha := by
  intro l
  induction l with
  | nil => intro _ _; simp [insertLe]
  | cons b bs ih =>
    intro hp hmin
    rw [List.pairwise_cons] at hp
    obtain ⟨hb, hbs⟩ := hp
    unfold insertLe
    by_cases hab : lenLe a b = true
    · have hable : a.length ≤ b.length := by simpa [lenLe] using hab
      rw [if_pos hab, List.pairwise_cons]
      refine ⟨?_, List.pairwise_cons.mpr ⟨hb, hbs⟩⟩
      intro x hx
      cases List.mem_cons.mp hx with
      | inl hxb =>
        subst hxb
        by_cases hlt : a.length < x.length
        · exact Or.inl hlt
        · exact Or.inr ⟨by omega, hmin x (by simp)⟩
      | inr hxs =>
        have hbx : b.length ≤ x.length := by
          rcases hb x hxs with h | ⟨h, _⟩ <;> omega
        by_cases hlt : a.length < x.length
        · exact Or.inl hlt
        · exact Or.inr ⟨by omega, hmin x (by simp [hxs])⟩
    · have hba : b.length < a.length := by
        have h' : ¬a.length ≤ b.length := by simpa [lenLe] using hab
        omega
      rw [if_neg hab, List.pairwise_cons]
      refine ⟨?_, ih hbs (fun c hc => hmin c (by simp [hc]))⟩
      intro x hx
      have hx' := (insertLe_perm lenLe a bs).mem_iff.mp hx
      cases List.mem_cons.mp hx' with
      | inl hxa => rw [hxa]; exact Or.inl hba
      | inr hxs => exact hb x hxs

/-- The outer stable sort by length of an alphabetically sorted list is
ordered by length, then alphabetically among equal lengths. -/
theorem pySorted_len_combined :
    ∀ l, l.Pairwise (fun x y => strLe x y = true) →
      (pySorted lenLe l).Pairwise ordLenAlpha := by
  intro l
  induction l with
  | nil => intro _; simp [pySorted]
  | cons a as ih =>
    intro h
    rw [List.pairwise_cons] at h
    obtain ⟨ha, has⟩ := h
    unfold pySorted
    refine insertLe_len_combined a (pySorted lenLe as) (ih has) ?_
    intro b hb
    exact ha b ((pySorted_perm lenLe as).mem_iff.mp hb)

/-- C8: the keyboard-layout option list equals the identifiers
reordered (a permutation) so that they are ordered primarily by
increasing length, with identifiers of equal length in alphabetical
(code point) order — the result of an alphabetical sort followed by a
stable sort by length. -/
theorem C8_language_sort (kb_lang : List String) :
    (select_language_options kb_lang).Perm kb_lang ∧
    (select_language_options kb_lang).Pairwise ordLenAlpha := by
  constructor
  · exact (pySorted_perm lenLe (pySorted strLe kb_lang)).trans
      (pySorted_perm strLe kb_lang)
  · exact pySorted_len_combined (pySorted strLe kb_lang)
      (pySorted_sorted_str kb_lang)

/-- Every field produced by the split worker is a nonempty run of
non-whitespace characters, provided the accumulator holds no
whitespace. -/
theorem pySplitAux_sound (cs : List Char) :
    ∀ acc : List Char, (∀ c ∈ acc, pyIsSpace c = false) →
      ∀ l ∈ pySplitAux cs acc, l ≠ [] ∧ ∀ c ∈ l, pyIsSpace c = false := by
  induction cs with
  | nil =>
    intro acc hacc l hl
    unfold pySplitAux at hl
    cases he : acc.isEmpty with
    | true => simp [he] at hl
    | false =>
      simp [he] at hl
      subst hl
      refine ⟨by simpa using (List.isEmpty_eq_false).mp he, ?_⟩
      intro c hc
      exact hacc c (List.mem_reverse.mp hc)
  | cons c cs ih =>
    intro acc hacc l hl
    unfold pySplitAux at hl
    cases hsp : pyIsSpace c with
    | true =>
      rw [hsp] at hl
      cases he : acc.isEmpty with
      | true =>
        simp [he] at hl
        exact ih [] (by simp) l hl
      | false =>
        simp [he] at hl
        cases hl with
        | inl h =>
          subst h
          refine ⟨by simpa using (List.isEmpty_eq_false).mp he, ?_⟩
          intro d hd
          exact hacc d (List.mem_reverse.mp hd)
        | inr h => exact ih [] (by simp) l h
    | false =>
      rw [hsp] at hl
      simp only [Bool.false_eq_true, if_false] at hl
      refine ih (c :: acc) ?_ l hl
      intro d hd
      cases List.mem_cons.mp hd with
      | inl h => subst h; exact hsp
      | inr h => exact hacc d h

/-- Every package produced by `read_packages` is a nonempty string
containing no whitespace. -/
theorem read_packages_sound (s : String) :
    ∀ p ∈ read_packages s, p ≠ "" ∧ ∀ c ∈ p.toList, pyIsSpace c = false := by
  intro p hp
  unfold read_packages at hp
  by_cases he : pyStrip s = ""
  · simp [he] at hp
  · simp only [he, if_false] at hp
    unfold pySplit at hp
    rw [List.mem_map] at hp
    obtain ⟨l, hl, rfl⟩ := hp
    have hs := pySplitAux_sound (pyStrip s).toList [] (by simp) l hl
    refine ⟨?_, hs.2⟩
    intro hcon
    exact hs.1 (congrArg String.toList hcon)

/-- Every re-prompt the validation loop issues is seeded with exactly
the valid subset of the package list that failed validation. -/
theorem askLoop_reprompt_seed (isValid : String → Bool) :
    ∀ (inputs packages : List String),
      ∀ pr ∈ (askLoop isValid inputs packages).reprompts,
        pr.2 = pr.1.filter fun p => isValid p := by
  intro inputs
  induction inputs with
  | nil =>
    intro packages pr hpr
    unfold askLoop at hpr
    by_cases h1 : packages.isEmpty
    · simp [h1] at hpr
    · by_cases h2 : (packages.filter fun p => !isValid p).isEmpty
      · simp [h1, h2] at hpr
      · simp [h1, h2] at hpr
        rw [hpr]
  | cons i rest ih =>
    intro packages pr hpr
    unfold askLoop at hpr
    by_cases h1 : packages.isEmpty
    · simp [h1] at hpr
    · by_cases h2 : (packages.filter fun p => !isValid p).isEmpty
      · simp [h1, h2] at hpr
      · simp [h1, h2] at hpr
        cases hpr with
        | inl h => rw [h]
        | inr h => exact ih (read_packages i) pr h

/-- When the validation loop terminates, the returned list is empty or
consists only of packages the oracle accepts. -/
theorem askLoop_result_valid (isValid : String → Bool) :
    ∀ (inputs packages r : List String),
      (askLoop isValid inputs packages).result = some r →
      r = [] ∨ ∀ p ∈ r, isValid p = true := by
  intro inputs
  induction inputs with
  | nil =>
    intro packages r h
    unfold askLoop at h
    by_cases h1 : packages.isEmpty
    · simp [h1] at h
      left
      rw [← h]
      exact List.isEmpty_iff.mp h1
    · by_cases h2 : (packages.filter fun p => !isValid p).isEmpty
      · simp [h1, h2] at h
        right
        intro p hp
        rw [← h] at hp
        have := List.filter_eq_nil_iff.mp (List.isEmpty_iff.mp h2) p hp
        simpa using this
      · simp [h1, h2] at h
  | cons i rest ih =>
    intro packages r h
    unfold askLoop at h
    by_cases h1 : packages.isEmpty
    · simp [h1] at h
      left
      rw [← h]
      exact List.isEmpty_iff.mp h1
    · by_cases h2 : (packages.filter fun p => !isValid p).isEmpty
      · simp [h1, h2] at h
        right
        intro p hp
        rw [← h] at hp
        have := List.filter_eq_nil_iff.mp (List.isEmpty_iff.mp h2) p hp
        simpa using this
      · simp [h1, h2] at h
        exact ih (read_packages i) r h

/-- The validation loop only ever returns package lists built by
`read_packages`, hence any property of all `read_packages` outputs that
the initial list also has is preserved into the result. -/
theorem askLoop_result_tokens (isValid : String → Bool) :
    ∀ (inputs packages r : List String),
      (∀ p ∈ packages, p ≠ "" ∧ ∀ c ∈ p.toList, pyIsSpace c = false) →
      (askLoop isValid inputs packages).result = some r →
      ∀ p ∈ r, p ≠ "" ∧ ∀ c ∈ p.toList, pyIsSpace c = false := by
  intro inputs
  induction inputs with
  | nil =>
    intro packages r hpk h
    unfold askLoop at h
    by_cases h1 : packages.isEmpty
    · simp [h1] at h
      rw [← h]
      exact hpk
    · by_cases h2 : (packages.filter fun p => !isValid p).isEmpty
      · simp [h1, h2] at h
        rw [← h]
        exact hpk
      · simp [h1, h2] at h
  | cons i rest ih =>
    intro packages r hpk h
    unfold askLoop at h
    by_cases h1 : packages.isEmpty
    · simp [h1] at h
      rw [← h]
      exact hpk
    · by_cases h2 : (packages.filter fun p => !isValid p).isEmpty
      · simp [h1, h2] at h
        rw [← h]
        exact hpk
      · simp [h1, h2] at h
        exact ih (read_packages i) r (read_packages_sound i) h

/-- C5: with validation enabled (neither flag set), every re-prompt
after a failed validation is seeded with exactly the valid subset of
the previous entry, and when the loop terminates the returned list is
either empty or consists only of packages the existence check accepts. -/
theorem C5_validation_loop (isValid : String → Bool)
    (pre_set_packages : List String) (firstInput : String)
    (laterInputs : List String) :
    (∀ pr ∈ (ask_additional_packages_to_install false false isValid
        pre_set_packages firstInput laterInputs).reprompts,
      pr.2 = pr.1.filter fun p => isValid p) ∧
    (∀ r, (ask_additional_packages_to_install false false isValid
        pre_set_packages firstInput laterInputs).result = some r →
      r = [] ∨ ∀ p ∈ r, isValid p = true) :=
  ⟨askLoop_reprompt_seed isValid laterInputs (read_packages firstInput),
   fun r h =>
     askLoop_result_valid isValid laterInputs (read_packages firstInput) r h⟩

/-- Witness for C5: the oracle rejects `bad`; the first entry
`bad good` triggers a re-prompt seeded with `["good"]`, and the final
answer `good extra` is returned with every package valid. -/
theorem C5_validation_loop_witness :
    (["good"] : List String) =
      (["bad", "good"] : List String).filter (fun p => p != "bad") ∧
    ((["good", "extra"] : List String) = [] ∨
      ∀ p ∈ (["good", "extra"] : List String), (p != "bad") = true) := by
  constructor
  · exact (C5_validation_loop (fun p => p != "bad") [] "bad good"
      ["good extra"]).1 (["bad", "good"], ["good"]) (by decide)
  · exact (C5_validation_loop (fun p => p != "bad") [] "bad good"
      ["good extra"]).2 ["good", "extra"] (by decide)

/-- C6: with the offline flag set, the validation service is never
called and the function returns the first submitted input stripped and
split on whitespace, exactly as entered — the empty list when the
input is blank. -/
theorem C6_offline_passthrough (no_pkg_lookups : Bool)
    (isValid : String → Bool) (pre_set_packages : List String)
    (firstInput : String) (laterInputs : List String) :
    (ask_additional_packages_to_install true no_pkg_lookups isValid
      pre_set_packages firstInput laterInputs).validationCalls = 0 ∧
    (ask_additional_packages_to_install true no_pkg_lookups isValid
      pre_set_packages firstInput laterInputs).result =
      some (read_packages firstInput) ∧
    (pyStrip firstInput = "" →
      (ask_additional_packages_to_install true no_pkg_lookups isValid
        pre_set_packages firstInput laterInputs).result = some []) := by
  refine ⟨rfl, rfl, fun h => ?_⟩
  show some (read_packages firstInput) = some []
  simp [read_packages, h]

/-- Witness for C6 on an all-whitespace input. -/
theorem C6_offline_passthrough_witness :
    (ask_additional_packages_to_install true false (fun _ => false) []
      "   " []).result = some [] :=
  (C6_offline_passthrough false (fun _ => false) [] "   " []).2.2 (by decide)

/-- C10: whenever `ask_additional_packages_to_install` returns a list,
every element is a nonempty string containing no whitespace, for every
flag combination, oracle, preset and sequence of user inputs; and a
blank (all-whitespace) input tokenizes to the empty list. -/
theorem C10_tokens_wellformed (offline no_pkg_lookups : Bool)
    (isValid : String → Bool) (pre_set_packages : List String)
    (firstInput : String) (laterInputs : List String) (r : List String)
    (h : (ask_additional_packages_to_install offline no_pkg_lookups isValid
      pre_set_packages firstInput laterInputs).result = some r) :
    (∀ p ∈ r, p ≠ "" ∧ ∀ c ∈ p.toList, pyIsSpace c = false) ∧
    (pyStrip firstInput = "" → read_packages firstInput = []) := by
  refine ⟨?_, fun hb => by simp [read_packages, hb]⟩
  unfold ask_additional_packages_to_install at h
  by_cases hcond : (!offline && !no_pkg_lookups) = true
  · rw [if_pos hcond] at h
    exact askLoop_result_tokens isValid laterInputs (read_packages firstInput)
      r (read_packages_sound firstInput) h
  · rw [if_neg hcond] at h
    have hr : r = read_packages firstInput := by
      simpa using (Option.some_injective _ h.symm)
    rw [hr]
    exact read_packages_sound firstInput

/-- Witness for C10 on a concrete online run, instantiated at the first
returned package. -/
theorem C10_tokens_wellformed_witness :
    ("ab" : String) ≠ "" ∧ ∀ c ∈ ("ab" : String).toList, pyIsSpace c = false :=
  (C10_tokens_wellformed false false (fun _ => true) [] (" ab  c ") []
    ["ab", "c"] (by decide)).1 "ab" (by decide)

/-- C9: `ask_for_a_timezone` and `ask_for_audio_selection` match only
the `Esc` and `Selection` result kinds; for any other widget result
(here: `Ctrl_c`) the Python body falls through the `match` and
implicitly returns `None` — neither the preset nor the default. -/
theorem C9_fallthrough_none (preset preset2 : Option String) (desktop : Bool)
    (res : MenuResult String) (h1 : res ≠ MenuResult.Esc)
    (h2 : ∀ v, res ≠ MenuResult.Selection v) :
    ask_for_a_timezone preset res = none ∧
    ask_for_audio_selection desktop preset2 res = none := by
  cases res with
  | Esc => exact absurd rfl h1
  | Selection v => exact absurd rfl (h2 v)
  | Ctrl_c => exact ⟨rfl, rfl⟩

/-- Witness for C9 at a concrete interrupt: both functions return
`none` on `Ctrl_c` even with presets supplied. -/
theorem C9_fallthrough_none_witness :
    ask_for_a_timezone (some ("UTC")) MenuResult.Ctrl_c = none ∧
    ask_for_audio_selection true (some ("pipewire")) MenuResult.Ctrl_c = none :=
  C9_fallthrough_none (some ("UTC")) (some ("pipewire")) true MenuResult.Ctrl_c
    (by decide) (fun v h => MenuResult.noConfusion h)

end GeneralConf
